import Mathlib

/-!
Shallow embedding of `parse_biotic3.py`, a streaming (SAX) extractor that
reads biotic v3 XML files and writes one semicolon-delimited CSV row per
accepted catch-sample.  Python dictionaries are modelled as duplicate-free
association lists, the three SAX callbacks as explicit state-transition
functions, and Python exceptions (KeyError on a missing attribute,
TypeError on indexing `None`) as `Option.none` results.
-/

namespace Biotic3

/-- A Python `dict` with string keys and string values, modelled as an
association list without duplicate keys. -/
abbrev Rec := List (String × String)

/-- Dictionary lookup: `d[k]` returning `none` when the key is missing. -/
def getKey : Rec → String → Option String
  | [], _ => none
  | p :: r, k => if p.1 = k then some p.2 else getKey r k

/-- Membership test `k in d`. -/
def hasKey (r : Rec) (k : String) : Bool :=
  (getKey r k).isSome

/-- Dictionary assignment `d[k] = v`: replaces the value of an existing key
in place, otherwise appends the new binding. -/
def setKey : Rec → String → String → Rec
  | [], k, v => [(k, v)]
  | p :: r, k, v => if p.1 = k then (k, v) :: r else p :: setKey r k v

/-- Dictionary removal `d.pop(k)`. -/
def popKey : Rec → String → Rec
  | [], _ => []
  | p :: r, k => if p.1 = k then popKey r k else p :: popKey r k

/-- Characters treated as whitespace by Python's `str.strip()` (ASCII part). -/
def pyIsSpace (c : Char) : Bool :=
  c = ' ' || c = '\t' || c = '\n' || c = '\x0d' || c = '\x0b' || c = '\x0c'

/-- Python `str.strip()` on the character list of a string. -/
def pyStripList (l : List Char) : List Char :=
  ((l.dropWhile pyIsSpace).reverse.dropWhile pyIsSpace).reverse

/-- Python `str.strip()`. -/
def pyStrip (s : String) : String :=
  String.mk (pyStripList s.data)

/-- Python `content.replace("\n", "")`: drop every newline character. -/
def removeNL (s : String) : String :=
  String.mk (s.data.filter (fun c => if c = '\n' then false else true))

/-- Python `s.replace(";", ":")` for the single-character pattern used on
the station comment (line 124 of the source). -/
def replaceSemis (s : String) : String :=
  String.mk (s.data.map (fun c => if c = ';' then ':' else c))

/-- Python `';'.join(l)`. -/
def joinSemi : List String → String
  | [] => ""
  | [x] => x
  | x :: xs => x ++ ";" ++ joinSemi xs

/-- The configured mission type name (module constant `MISSIONTYPENAME`). -/
def MISSIONTYPENAME : String := "Referanseflåten-Kyst"

/-- The ordered field schema (module constant `VARS`, lines 50-53). -/
def VARS : List String :=
  ["platformname", "callsignal", "serial", "stationstartdate", "stationstopdate",
   "latitudestart", "longitudestart", "area", "location", "fishingdepthmax",
   "fishingdepthmin", "gear", "gearcount", "soaktime", "stationcomment",
   "commonname", "catchweight", "catchcount", "lengthsampleweight",
   "lengthsamplecount", "specimensamplecount"]

/-- The five quantity fields popped at each catch-sample close, in the order
of line 97 of the source. -/
def quantVars : List String :=
  ["catchweight", "catchcount", "lengthsamplecount", "lengthsampleweight",
   "specimensamplecount"]

/-- Handler state: the mutable attributes of the `Biotic3` handler object.
`out` is the list of lines written to the output file object so far. -/
structure B3State where
  missiontypename : String
  counter0 : Nat
  counter1 : Nat
  parse : Bool
  data : Option Rec
  tag : String
  parent : String
  skipped : Nat
  out : List String
deriving DecidableEq, Repr

/-- The header line written by `__init__` (line 80). -/
def header : String := pyStrip (joinSemi VARS)

/-- Handler construction (`__init__`): counters zero, gate closed, no record,
header line already written. -/
def initState (missiontypename : String) : B3State :=
  { missiontypename := missiontypename, counter0 := 0, counter1 := 0,
    parse := false, data := none, tag := "", parent := "", skipped := 0,
    out := [header] }

/-- The acceptance test of `append2csv` (line 118): the record has a serial,
a commonname, and at least one of the five quantity fields. -/
def accept (d : Rec) : Bool :=
  hasKey d "serial" && hasKey d "commonname" &&
    (hasKey d "catchweight" || hasKey d "catchcount" ||
     hasKey d "lengthsamplecount" || hasKey d "lengthsampleweight" ||
     hasKey d "specimensamplecount")

/-- One iteration of the NA-fill loop (lines 120-122): insert `"NA"` for a
schema field that is not yet a key of the record. -/
def naFillStep (d : Rec) (var : String) : Rec :=
  if hasKey d var = true then d else setKey d var "NA"

/-- One iteration of the quantity-pop loop (lines 97-99). -/
def popStep (d : Rec) (var : String) : Rec :=
  if hasKey d var = true then popKey d var else d

/-- `Biotic3.append2csv` (lines 116-135), acting on the record, the skipped
counter and the output lines; returns the Python return value together with
the updated record, counter and output. -/
def append2csv (d : Rec) (skipped : Nat) (out : List String) :
    Nat × Rec × Nat × List String :=
  if accept d = true then
    let d1 := VARS.foldl naFillStep d
    let d2 := setKey d1 "stationcomment"
      (replaceSemis ((getKey d1 "stationcomment").getD ""))
    let line := pyStrip (joinSemi (VARS.map (fun v => (getKey d2 v).getD "")))
    (1, d2, skipped, out ++ [line])
  else
    (0, d, skipped + 1, out)

/-- The record after the NA-fill loop and the station-comment sanitization
of `append2csv` (the value of its local `self.data` just before the output
row is built); definitionally the intermediate record of `append2csv`'s
acceptance branch. -/
def sanitizedFill (d : Rec) : Rec :=
  setKey (VARS.foldl naFillStep d) "stationcomment"
    (replaceSemis ((getKey (VARS.foldl naFillStep d) "stationcomment").getD ""))

/-- `Biotic3.startElement` (lines 82-89).  `none` models the uncaught
KeyError raised by `attributes["serialnumber"]` when the attribute is
missing (and the TypeError of item assignment on a `None` record). -/
def startElement (s : B3State) (tag : String) (attrs : Rec) :
    Option B3State :=
  let s := { s with parent := s.tag, tag := tag }
  if s.parse = true ∧ tag = "fishstation" then
    match getKey attrs "serialnumber" with
    | none => none
    | some v =>
      match s.data with
      | none => none
      | some d =>
        some { s with data := some (setKey d "serial" v),
                      counter0 := s.counter0 + 1 }
  else
    some s

/-- `Biotic3.endElement` (lines 91-105).  The `self.tag = ""` assignment sits
inside the `if self.parse == True` block in the source.  `none` models the
uncaught TypeError of `"serial" in None` when the record is absent. -/
def endElement (s : B3State) (tag : String) : Option B3State :=
  if s.parse = true then
    match (if tag = "catchsample" then
            match s.data with
            | none => none
            | some d =>
              let t := append2csv d s.skipped s.out
              some { s with counter1 := s.counter1 + t.1,
                            data := some (quantVars.foldl popStep t.2.1),
                            skipped := t.2.2.1, out := t.2.2.2 }
           else some s) with
    | none => none
    | some s1 =>
      let s2 := if tag = "mission" then { s1 with data := none, parse := false }
                else s1
      some { s2 with tag := "" }
  else
    some s

/-- `Biotic3.characters` (lines 107-114). -/
def characters (s : B3State) (content : String) : B3State :=
  let c := pyStrip (removeNL content)
  let s1 :=
    match s.data with
    | some d =>
      if s.parse = true ∧ s.tag ∈ VARS then
        { s with data := some (setKey d s.tag c) }
      else s
    | none => s
  if s1.tag = "missiontypename" ∧ c = s1.missiontypename then
    { s1 with parse := true, data := some [] }
  else s1

/-- A SAX event: element open (with attributes), text content, element close. -/
inductive Event where
  | start (tag : String) (attrs : Rec)
  | text (content : String)
  | close (tag : String)
deriving DecidableEq, Repr

/-- Dispatch one SAX event to the corresponding handler callback. -/
def step (s : B3State) : Event → Option B3State
  | Event.start tag attrs => startElement s tag attrs
  | Event.text c => characters s c
  | Event.close tag => endElement s tag

/-- Process a stream of SAX events; `none` as soon as a callback raises. -/
def run (s : B3State) : List Event → Option B3State
  | [] => some s
  | e :: evs => (step s e).bind (fun t => run t evs)

/-- Whether a text event's normalized content equals the configured mission
type name — the only way the gate can open (lines 112-114). -/
def isOpeningText (mtn : String) : Event → Bool
  | Event.text c => pyStrip (removeNL c) = mtn
  | _ => false

/-- Fuel-driven worker for Python `str.replace(old, new)` on character
lists: replaces non-overlapping occurrences left to right. -/
def pyReplaceAux (pat rep : List Char) : Nat → List Char → List Char
  | _, [] => []
  | 0, l => l
  | Nat.succ n, c :: l =>
    if pat ≠ [] ∧ pat.isPrefixOf (c :: l) then
      rep ++ pyReplaceAux pat rep n ((c :: l).drop pat.length)
    else
      c :: pyReplaceAux pat rep n l

/-- Python `s.replace(pat, rep)` for a non-empty pattern. -/
def pyReplace (s pat rep : String) : String :=
  String.mk (pyReplaceAux pat.data rep.data s.data.length s.data)

/-- Output-path derivation (line 162 of the source):
`file_out = file.replace(".xml", ".csv")`. -/
def file_out (file : String) : String :=
  pyReplace file ".xml" ".csv"

/-- Output-path derivation as the specification words it, for comparison
with `file_out`: replace a trailing `.xml` extension with `.csv`, or append
`.csv` when no such extension is present. -/
def file_out_claimed (file : String) : String :=
  if ".xml".data.isSuffixOf file.data then
    String.mk (file.data.take (file.data.length - 4)) ++ ".csv"
  else
    file ++ ".csv"

/-- Split a character list at every occurrence of `c` (the field structure
of an emitted row seen by a downstream CSV reader). -/
def splitOnChar (c : Char) : List Char → List (List Char)
  | [] => [[]]
  | a :: l =>
    match splitOnChar c l with
    | [] => [[]]
    | f :: rest => if a = c then [] :: f :: rest else (a :: f) :: rest

/-- Number of occurrences of a character in a character list. -/
def countCh (c : Char) : List Char → Nat
  | [] => 0
  | a :: l => (if a = c then 1 else 0) + countCh c l

/-- The value `append2csv` starts from for a schema field: the record's
value when present, the `"NA"` placeholder otherwise. -/
def baseVal (d : Rec) (v : String) : String :=
  (getKey d v).getD "NA"

/-- The value a schema field renders to in an emitted row: `baseVal`,
additionally semicolon-sanitized for the station comment. -/
def rendered (d : Rec) (v : String) : String :=
  if v = "stationcomment" then replaceSemis (baseVal d v) else baseVal d v

/-- Apply a sequence of dictionary assignments (the effect of later text
events on the live record) to a record. -/
def applyUpdates (d : Rec) (us : List (String × String)) : Rec :=
  us.foldl (fun d u => setKey d u.1 u.2) d

/-- A concrete record with a serial, a commonname and one quantity field. -/
def d0 : Rec := [("serial", "1"), ("commonname", "cod"), ("catchweight", "2")]

/-- A concrete record whose station comment contains a semicolon. -/
def d8 : Rec :=
  [("serial", "1"), ("commonname", "cod"), ("catchweight", "2"),
   ("stationcomment", "rough;seas")]

/-- A concrete handler state inside an open gate, about to close a
catch-sample whose record is `d0`. -/
def s0 : B3State :=
  { missiontypename := "M", counter0 := 1, counter1 := 0, parse := true,
    data := some d0, tag := "catchsample", parent := "", skipped := 0,
    out := [header] }

/-- Events that open the gate for mission type name `"M"`. -/
def gateEvts : List Event :=
  [Event.start "missiontypename" [], Event.text "M",
   Event.close "missiontypename"]

/-- Events producing, inside an open gate, a catch-sample whose commonname
text contains a semicolon, followed by the catch-sample close. -/
def evts6 : List Event :=
  gateEvts ++
  [Event.start "fishstation" [("serialnumber", "1")],
   Event.start "commonname" [], Event.text "a;b", Event.close "commonname",
   Event.start "catchweight" [], Event.text "2", Event.close "catchweight",
   Event.close "catchsample"]

/-- Events producing, inside an open gate, a complete catch-sample and
closing it. -/
def evts3 : List Event :=
  gateEvts ++
  [Event.start "fishstation" [("serialnumber", "1")],
   Event.start "commonname" [], Event.text "cod", Event.close "commonname",
   Event.start "catchweight" [], Event.text "2", Event.close "catchweight",
   Event.close "catchsample"]

/-- Events after a mission close that contain no qualifying
mission-type-name text match. -/
def evts9 : List Event :=
  [Event.start "catchsample" [], Event.close "catchsample", Event.text "x"]

theorem getKey_setKey_self (r : Rec) (k v : String) :
    getKey (setKey r k v) k = some v := by
  induction r with
  | nil => simp [setKey, getKey]
  | cons p r ih =>
    by_cases h : p.1 = k
    · simp [setKey, h, getKey]
    · simp [setKey, h, getKey, ih]

theorem getKey_setKey_ne (r : Rec) (k v k' : String) (h : k' ≠ k) :
    getKey (setKey r k v) k' = getKey r k' := by
  induction r with
  | nil => simp [setKey, getKey, Ne.symm h]
  | cons p r ih =>
    by_cases hp : p.1 = k
    · simp [setKey, hp, getKey, Ne.symm h]
    · by_cases hq : p.1 = k' <;> simp [setKey, hp, getKey, hq, ih, h]

theorem hasKey_setKey (r : Rec) (k v k' : String) :
    hasKey (setKey r k v) k' = true ↔ k' = k ∨ hasKey r k' = true := by
  by_cases h : k' = k
  · subst h; simp [hasKey, getKey_setKey_self]
  · simp [hasKey, getKey_setKey_ne r k v k' h, h]

theorem getKey_popKey_self (r : Rec) (k : String) :
    getKey (popKey r k) k = none := by
  induction r with
  | nil => simp [popKey, getKey]
  | cons p r ih =>
    by_cases h : p.1 = k <;> simp [popKey, h, getKey, ih]

theorem getKey_popKey_ne (r : Rec) (k k' : String) (h : k' ≠ k) :
    getKey (popKey r k) k' = getKey r k' := by
  induction r with
  | nil => rfl
  | cons p r ih =>
    by_cases hp : p.1 = k
    · simp [popKey, hp, getKey, Ne.symm h, ih]
    · by_cases hq : p.1 = k' <;> simp [popKey, hp, getKey, hq, ih, h]

theorem getKey_fold_fill_of_some (l : List String) (d : Rec) (v x : String)
    (h : getKey d v = some x) :
    getKey (l.foldl naFillStep d) v = some x := by
  induction l generalizing d with
  | nil => simpa using h
  | cons a l ih =>
    rw [List.foldl_cons]
    apply ih
    unfold naFillStep
    by_cases ha : hasKey d a = true
    · rw [if_pos ha]; exact h
    · rw [if_neg ha]
      by_cases hv : v = a
      · subst hv
        exact absurd (by simp [hasKey, h]) ha
      · rw [getKey_setKey_ne _ _ _ _ hv]; exact h

theorem getKey_fold_fill_of_none_mem (l : List String) (d : Rec) (v : String)
    (h : getKey d v = none) (hm : v ∈ l) :
    getKey (l.foldl naFillStep d) v = some "NA" := by
  induction l generalizing d with
  | nil => cases hm
  | cons a l ih =>
    rw [List.foldl_cons]
    by_cases hv : v = a
    · subst hv
      have hstep : naFillStep d v = setKey d v "NA" := by
        simp [naFillStep, hasKey, h]
      rw [hstep]
      exact getKey_fold_fill_of_some l _ _ _ (getKey_setKey_self d v "NA")
    · have hm' : v ∈ l := by
        cases hm with
        | head => exact absurd rfl hv
        | tail _ h' => exact h'
      refine ih _ ?_ hm'
      unfold naFillStep
      by_cases ha : hasKey d a = true
      · rw [if_pos ha]; exact h
      · rw [if_neg ha]
        rw [getKey_setKey_ne _ _ _ _ hv]; exact h

theorem getKey_fold_fill_of_none_nmem (l : List String) (d : Rec) (v : String)
    (h : getKey d v = none) (hm : v ∉ l) :
    getKey (l.foldl naFillStep d) v = none := by
  induction l generalizing d with
  | nil => simpa using h
  | cons a l ih =>
    rw [List.foldl_cons]
    have hv : v ≠ a := fun heq => hm (heq ▸ List.mem_cons_self a l)
    have hm' : v ∉ l := fun h' => hm (List.mem_cons_of_mem a h')
    refine ih _ ?_ hm'
    unfold naFillStep
    by_cases ha : hasKey d a = true
    · rw [if_pos ha]; exact h
    · rw [if_neg ha]
      rw [getKey_setKey_ne _ _ _ _ hv]; exact h

theorem hasKey_fold_fill (l : List String) (d : Rec) (k : String) :
    hasKey (l.foldl naFillStep d) k = true ↔ k ∈ l ∨ hasKey d k = true := by
  cases hx : getKey d k with
  | some x =>
    have := getKey_fold_fill_of_some l d k x hx
    simp [hasKey, this, hx]
  | none =>
    by_cases hm : k ∈ l
    · have := getKey_fold_fill_of_none_mem l d k hx hm
      simp [hasKey, this, hm]
    · have := getKey_fold_fill_of_none_nmem l d k hx hm
      simp [hasKey, this, hm, hx]

theorem getKey_fold_pop (l : List String) (d : Rec) (v : String) :
    getKey (l.foldl popStep d) v = if v ∈ l then none else getKey d v := by
  induction l generalizing d with
  | nil => simp
  | cons a l ih =>
    rw [List.foldl_cons, ih]
    by_cases hv : v ∈ l
    · simp [hv, List.mem_cons]
    · by_cases hva : v = a
      · subst hva
        have hnone : getKey (popStep d v) v = none := by
          unfold popStep
          by_cases hk : hasKey d v = true
          · simp [hk, getKey_popKey_self]
          · rw [if_neg hk]
            cases hg : getKey d v with
            | none => rfl
            | some x => exact absurd (by simp [hasKey, hg]) hk
        simp [hv, hnone]
      · have hkeep : getKey (popStep d a) v = getKey d v := by
          unfold popStep
          by_cases hk : hasKey d a = true
          · simp [hk, getKey_popKey_ne _ _ _ hva]
          · simp [hk]
        simp [hv, hva, hkeep, List.mem_cons]

theorem hasKey_applyUpdates (us : List (String × String)) (d : Rec)
    (k : String) :
    hasKey (applyUpdates d us) k = true ↔
      k ∈ us.map Prod.fst ∨ hasKey d k = true := by
  induction us generalizing d with
  | nil => simp [applyUpdates]
  | cons u us ih =>
    rw [show applyUpdates d (u :: us) = applyUpdates (setKey d u.1 u.2) us
          from rfl,
        ih, hasKey_setKey]
    simp only [List.map_cons, List.mem_cons]
    tauto

theorem data_append (a b : String) : (a ++ b).data = a.data ++ b.data := by
  cases a; cases b; rfl

theorem countCh_append (c : Char) (l1 l2 : List Char) :
    countCh c (l1 ++ l2) = countCh c l1 + countCh c l2 := by
  induction l1 with
  | nil => simp [countCh]
  | cons a l ih => simp [countCh, ih, Nat.add_assoc]

theorem countCh_reverse (c : Char) (l : List Char) :
    countCh c l.reverse = countCh c l := by
  induction l with
  | nil => rfl
  | cons a l ih =>
    simp [List.reverse_cons, countCh_append, countCh, ih, Nat.add_comm]

theorem countCh_dropWhile (p : Char → Bool) (c : Char) (hc : p c = false)
    (l : List Char) :
    countCh c (l.dropWhile p) = countCh c l := by
  induction l with
  | nil => rfl
  | cons a l ih =>
    rw [List.dropWhile_cons]
    by_cases ha : p a = true
    · have hac : ¬(a = c) := by
        intro h; rw [h, hc] at ha; cases ha
      simp [ha, countCh, hac, ih]
    · simp [ha]

theorem countCh_pyStripList (c : Char) (hc : pyIsSpace c = false)
    (l : List Char) :
    countCh c (pyStripList l) = countCh c l := by
  unfold pyStripList
  rw [countCh_reverse, countCh_dropWhile _ _ hc, countCh_reverse,
      countCh_dropWhile _ _ hc]

theorem countCh_pyStrip (c : Char) (hc : pyIsSpace c = false) (s : String) :
    countCh c (pyStrip s).data = countCh c s.data := by
  show countCh c (pyStripList s.data) = countCh c s.data
  exact countCh_pyStripList c hc s.data

theorem countCh_replaceSemis (s : String) :
    countCh ';' (replaceSemis s).data = 0 := by
  show countCh ';' (s.data.map (fun c => if c = ';' then ':' else c)) = 0
  induction s.data with
  | nil => rfl
  | cons a l ih =>
    by_cases ha : a = ';' <;> simp [countCh, ha, ih]

theorem countCh_joinSemi (ls : List String) (hne : ls ≠ [])
    (h : ∀ x ∈ ls, countCh ';' x.data = 0) :
    countCh ';' (joinSemi ls).data + 1 = ls.length := by
  induction ls with
  | nil => cases hne rfl
  | cons x ls ih =>
    cases ls with
    | nil => simp [joinSemi, h x (by simp)]
    | cons y ls' =>
      rw [show joinSemi (x :: y :: ls') = x ++ ";" ++ joinSemi (y :: ls')
            from rfl]
      rw [data_append, data_append, countCh_append, countCh_append]
      have hx := h x (by simp)
      have hrest := ih (by simp) (fun z hz => h z (List.mem_cons_of_mem x hz))
      have hsc : countCh ';' (";" : String).data = 1 := rfl
      simp only [List.length_cons] at *
      omega

theorem splitOnChar_length (c : Char) (l : List Char) :
    (splitOnChar c l).length = countCh c l + 1 := by
  induction l with
  | nil => rfl
  | cons a l ih =>
    rw [show splitOnChar c (a :: l) =
          (match splitOnChar c l with
           | [] => [[]]
           | f :: rest => if a = c then [] :: f :: rest else (a :: f) :: rest)
          from rfl]
    cases hs : splitOnChar c l with
    | nil => rw [hs] at ih; simp at ih
    | cons f rest =>
      rw [hs] at ih
      by_cases ha : a = c <;>
        simp only [ha, if_true, if_false, List.length_cons, countCh] <;>
        simp [countCh, ha] at ih ⊢ <;> omega

theorem mapCongrMem {α β : Type} (l : List α) (f g : α → β)
    (h : ∀ x ∈ l, f x = g x) : l.map f = l.map g := by
  induction l with
  | nil => rfl
  | cons a l ih =>
    simp only [List.map_cons]
    rw [h a (List.mem_cons_self a l), ih (fun x hx => h x (List.mem_cons_of_mem a hx))]

theorem getKey_fill_mem (d : Rec) (v : String) (hv : v ∈ VARS) :
    getKey (VARS.foldl naFillStep d) v = some (baseVal d v) := by
  cases hx : getKey d v with
  | some x =>
    rw [getKey_fold_fill_of_some VARS d v x hx]
    simp [baseVal, hx]
  | none =>
    rw [getKey_fold_fill_of_none_mem VARS d v hx hv]
    simp [baseVal, hx]

theorem getKey_sanitizedFill_mem (d : Rec) (v : String) (hv : v ∈ VARS) :
    getKey (sanitizedFill d) v = some (rendered d v) := by
  unfold sanitizedFill
  have hval : (getKey (VARS.foldl naFillStep d) "stationcomment").getD "" =
      baseVal d "stationcomment" := by
    rw [getKey_fill_mem d "stationcomment" (by decide)]
    rfl
  by_cases hsc : v = "stationcomment"
  · subst hsc
    rw [hval, getKey_setKey_self]
    simp [rendered]
  · rw [getKey_setKey_ne _ _ _ _ hsc, getKey_fill_mem d v hv]
    simp [rendered, hsc]

theorem getKey_sanitizedFill_ne (d : Rec) (v : String)
    (hsc : v ≠ "stationcomment") :
    getKey (sanitizedFill d) v = getKey (VARS.foldl naFillStep d) v := by
  unfold sanitizedFill
  exact getKey_setKey_ne _ _ _ _ hsc

theorem hasKey_sanitizedFill (d : Rec) (k : String) :
    hasKey (sanitizedFill d) k = true ↔ k ∈ VARS ∨ hasKey d k = true := by
  unfold sanitizedFill
  rw [hasKey_setKey, hasKey_fold_fill]
  constructor
  · rintro (rfl | h)
    · exact Or.inl (by decide)
    · exact h
  · exact fun h => Or.inr h

theorem append2csv_accepted (d : Rec) (sk : Nat) (out : List String)
    (h : accept d = true) :
    append2csv d sk out =
      (1, sanitizedFill d,
       sk, out ++ [pyStrip (joinSemi (VARS.map (rendered d)))]) := by
  unfold append2csv
  rw [if_pos h]
  have hmap :
      VARS.map (fun v => (getKey (sanitizedFill d) v).getD "") =
        VARS.map (rendered d) := by
    apply mapCongrMem
    intro v hv
    rw [getKey_sanitizedFill_mem d v hv]
    rfl
  show (1, sanitizedFill d, sk,
        out ++ [pyStrip (joinSemi (VARS.map (fun v => (getKey (sanitizedFill d) v).getD "")))]) = _
  rw [hmap]

theorem append2csv_rejected (d : Rec) (sk : Nat) (out : List String)
    (h : accept d = false) :
    append2csv d sk out = (0, d, sk + 1, out) := by
  unfold append2csv
  rw [if_neg (by simp [h])]

theorem accept_iff (d : Rec) :
    accept d = true ↔
      hasKey d "serial" = true ∧ hasKey d "commonname" = true ∧
        (hasKey d "catchweight" = true ∨ hasKey d "catchcount" = true ∨
         hasKey d "lengthsamplecount" = true ∨
         hasKey d "lengthsampleweight" = true ∨
         hasKey d "specimensamplecount" = true) := by
  simp only [accept, Bool.and_eq_true, Bool.or_eq_true, and_assoc, or_assoc]

theorem rendered_of_absent (d : Rec) (v : String) (h : hasKey d v = false) :
    rendered d v = "NA" := by
  have hx : getKey d v = none := by
    cases hg : getKey d v with
    | none => rfl
    | some x => rw [hasKey, hg] at h; cases h
  have hb : baseVal d v = "NA" := by simp [baseVal, hx]
  unfold rendered
  by_cases hsc : v = "stationcomment"
  · rw [if_pos hsc, hb]; decide
  · rw [if_neg hsc]; exact hb

theorem endElement_catchsample (s : B3State) (d : Rec) (hp : s.parse = true)
    (hd : s.data = some d) :
    endElement s "catchsample" = some
      { s with counter1 := s.counter1 + (append2csv d s.skipped s.out).1,
               data := some (quantVars.foldl popStep
                 (append2csv d s.skipped s.out).2.1),
               skipped := (append2csv d s.skipped s.out).2.2.1,
               out := (append2csv d s.skipped s.out).2.2.2,
               tag := "" } := by
  unfold endElement
  rw [hp, hd]
  rfl

theorem endElement_mission (s : B3State) (hp : s.parse = true) :
    endElement s "mission" = some
      { s with data := none, parse := false, tag := "" } := by
  unfold endElement
  rw [hp]
  rfl

theorem endElement_catchsample_nodata (s : B3State) (hp : s.parse = true)
    (hd : s.data = none) :
    endElement s "catchsample" = none := by
  unfold endElement
  rw [hp, hd]
  rfl

theorem endElement_other (s : B3State) (tag : String) (hp : s.parse = true)
    (ht : tag ≠ "catchsample") (hm : tag ≠ "mission") :
    endElement s tag = some { s with tag := "" } := by
  unfold endElement
  simp [hp, ht, hm]

theorem endElement_closed (s : B3State) (tag : String)
    (hp : s.parse = false) :
    endElement s tag = some s := by
  unfold endElement
  rw [hp]
  rfl

theorem step_gate_closed (s : B3State) (e : Event) (hp : s.parse = false)
    (ho : isOpeningText s.missiontypename e = false) :
    ∃ s', step s e = some s' ∧ s'.out = s.out ∧ s'.parse = false ∧
      s'.missiontypename = s.missiontypename := by
  cases e with
  | start tag attrs =>
    refine ⟨{ s with parent := s.tag, tag := tag }, ?_, rfl, hp, rfl⟩
    show startElement s tag attrs = _
    unfold startElement
    rw [if_neg (fun hc => by rw [hp] at hc; cases hc.1)]
  | text c =>
    have hno : ¬(pyStrip (removeNL c) = s.missiontypename) := by
      simpa [isOpeningText] using ho
    have hchar : characters s c = s := by
      cases hsd : s.data with
      | none => simp [characters, hsd, hno]
      | some d => simp [characters, hsd, hp, hno]
    exact ⟨s, by simp [step, hchar], rfl, hp, rfl⟩
  | close tag =>
    exact ⟨s, by simp [step, endElement_closed s tag hp], rfl, hp, rfl⟩

theorem run_gate_closed (evs : List Event) (s : B3State)
    (hp : s.parse = false)
    (h : ∀ e ∈ evs, isOpeningText s.missiontypename e = false) :
    ∃ s', run s evs = some s' ∧ s'.out = s.out ∧ s'.parse = false := by
  induction evs generalizing s with
  | nil => exact ⟨s, rfl, rfl, hp⟩
  | cons e evs ih =>
    obtain ⟨s1, hs1, hout1, hp1, hm1⟩ :=
      step_gate_closed s e hp (h e (List.mem_cons_self e evs))
    obtain ⟨s', hs', hout', hp'⟩ :=
      ih s1 hp1 (fun e' he' => by
        rw [hm1]; exact h e' (List.mem_cons_of_mem e he'))
    refine ⟨s', ?_, ?_, hp'⟩
    · show (step s e).bind (fun t => run t evs) = some s'
      rw [hs1]
      exact hs'
    · rw [hout', hout1]

/-- C1: at every catch-sample close processed while the gate is true, a row
is emitted if and only if the current record contains a serial, a
commonname, and at least one of the five quantity fields; an accepted
record appends exactly one row and leaves the skip counter alone, a
rejected record appends nothing and increments the skip counter. -/
theorem c1_emission_iff (s : B3State) (d : Rec) (hp : s.parse = true)
    (hd : s.data = some d) :
    ∃ s', endElement s "catchsample" = some s' ∧
      (s'.out.length = s.out.length + 1 ↔
        (hasKey d "serial" = true ∧ hasKey d "commonname" = true ∧
         (hasKey d "catchweight" = true ∨ hasKey d "catchcount" = true ∨
          hasKey d "lengthsamplecount" = true ∨
          hasKey d "lengthsampleweight" = true ∨
          hasKey d "specimensamplecount" = true))) ∧
      (accept d = true →
        s'.out.length = s.out.length + 1 ∧ s'.skipped = s.skipped ∧
          s'.counter1 = s.counter1 + 1) ∧
      (accept d = false →
        s'.out = s.out ∧ s'.skipped = s.skipped + 1 ∧
          s'.counter1 = s.counter1) := by
  have he := endElement_catchsample s d hp hd
  by_cases hacc : accept d = true
  · rw [append2csv_accepted d s.skipped s.out hacc] at he
    refine ⟨_, he, ?_, ?_, ?_⟩
    · exact iff_of_true (by simp) ((accept_iff d).mp hacc)
    · exact fun _ => ⟨by simp, rfl, rfl⟩
    · intro hfalse; rw [hacc] at hfalse; cases hfalse
  · have hacc' : accept d = false := by
      revert hacc; cases accept d <;> simp
    rw [append2csv_rejected d s.skipped s.out hacc'] at he
    refine ⟨_, he, ?_, ?_, ?_⟩
    · refine iff_of_false ?_ ?_
      · show ¬(s.out.length = s.out.length + 1)
        omega
      · intro hc
        rw [(accept_iff d).mpr hc] at hacc'
        cases hacc'
    · intro htrue; exact absurd htrue hacc
    · exact fun _ => ⟨rfl, rfl, rfl⟩

/-- Witness for C1: at the concrete gated state `s0` with record `d0`, one
row is emitted and the skip counter is unchanged. -/
theorem c1_witness :
    (endElement s0 "catchsample").map (fun t => (t.out.length, t.skipped)) =
      some (s0.out.length + 1, s0.skipped) := by
  obtain ⟨s', hse, _, hacc, _⟩ := c1_emission_iff s0 d0 rfl rfl
  obtain ⟨h1, h2, _⟩ := hacc (by decide)
  rw [hse]
  simp [h1, h2]

/-- C4: contrary to the claim, a station element that carries no
serial-number attribute is fatal while the gate is true: the handler's
`attributes["serialnumber"]` lookup raises an uncaught KeyError, modelled
as the run of the event stream evaluating to `none`. -/
theorem c4_missing_serial_attr_fatal :
    run (initState "M")
      [Event.start "missiontypename" [], Event.text "M",
       Event.close "missiontypename", Event.start "fishstation" []] =
      none := by
  decide

set_option maxRecDepth 10000 in
/-- C5: the output path is computed by `file.replace(".xml", ".csv")`, which
replaces every occurrence of ".xml" (not only a trailing extension) and
appends nothing when ".xml" does not occur — diverging on both counts from
the claimed derivation, spelled out by `file_out_claimed`. -/
theorem c5_file_out_eval :
    file_out "biotic" = "biotic" ∧
    file_out_claimed "biotic" = "biotic.csv" ∧
    file_out "/a.xml/biotic1.xml" = "/a.csv/biotic1.csv" ∧
    file_out_claimed "/a.xml/biotic1.xml" = "/a.xml/biotic1.csv" := by
  refine ⟨by decide, by decide, by decide, by decide⟩

/-- C7 counterexample: a close event processed while the gate is false
leaves the current tag unchanged (here `"foo"`), so the current-tag state
is not cleared unconditionally as the claim states. -/
theorem c7_counterexample :
    (run (initState "M") [Event.start "foo" [], Event.close "foo"]).map
        (fun t => t.tag) = some "foo" ∧
      (some "foo" : Option String) ≠ some "" := by
  exact ⟨by decide, by decide⟩

/-- C7 amended: the close handler clears the current tag to empty (without
restoring the parent) only when the gate is true; when the gate is false
the close event leaves the entire state, including the current tag,
unchanged. -/
theorem c7_amended (s : B3State) (tag : String) (s' : B3State)
    (h : endElement s tag = some s') :
    (s.parse = true → s'.tag = "" ∧ s'.parent = s.parent) ∧
    (s.parse = false → s' = s) := by
  constructor
  · intro hp
    by_cases ht : tag = "catchsample"
    · subst ht
      cases hd : s.data with
      | none =>
        rw [endElement_catchsample_nodata s hp hd] at h
        exact Option.noConfusion h
      | some d =>
        rw [endElement_catchsample s d hp hd] at h
        injection h with h
        subst h
        exact ⟨rfl, rfl⟩
    · by_cases hm : tag = "mission"
      · subst hm
        rw [endElement_mission s hp] at h
        injection h with h
        subst h
        exact ⟨rfl, rfl⟩
      · rw [endElement_other s tag hp ht hm] at h
        injection h with h
        subst h
        exact ⟨rfl, rfl⟩
  · intro hp
    rw [endElement_closed s tag hp] at h
    injection h with h
    exact h.symm

set_option maxRecDepth 10000 in
/-- Witness for C7's amended statement at a concrete gated state. -/
theorem c7_witness :
    ({ s0 with tag := "" } : B3State).tag = "" ∧
      ({ s0 with tag := "" } : B3State).parent = s0.parent :=
  (c7_amended s0 "foo" { s0 with tag := "" } (by decide)).1 rfl

/-- C10: whenever the row-validation precondition fails, `append2csv`
returns 0, increments the skipped counter by exactly one, writes nothing to
the output stream, and leaves the record mapping completely unchanged. -/
theorem c10_reject_path (d : Rec) (sk : Nat) (out : List String)
    (h : accept d = false) :
    append2csv d sk out = (0, d, sk + 1, out) :=
  append2csv_rejected d sk out h

/-- Witness for C10 at the empty record, which fails the precondition. -/
theorem c10_witness : append2csv [] 0 [] = (0, [], 1, []) :=
  c10_reject_path [] 0 [] rfl

set_option maxRecDepth 10000 in
/-- C3 counterexample: after an emitted catch-sample close inside an open
gate, the species name is still present in the record — the commonname
"cod" survives the close — so commonname is not among the cleared
fields. -/
theorem c3_counterexample :
    ((run (initState "M") evts3).bind (fun t => t.data)).bind
        (fun r => getKey r "commonname") = some "cod" ∧
      some "cod" ≠ (none : Option String) := by
  exact ⟨by decide, by decide⟩

/-- C3 amended: the catch-sample close removes exactly the five quantity
fields from the record; every other key — commonname as well as every
station-scoped field — keeps whatever value `append2csv` left in place, so
station fields persist for a sibling catch-sample. -/
theorem c3_amended (s : B3State) (d : Rec) (hp : s.parse = true)
    (hd : s.data = some d) :
    ∃ s' : B3State, endElement s "catchsample" = some s' ∧
      s'.data = some (quantVars.foldl popStep
        (append2csv d s.skipped s.out).2.1) ∧
      (∀ v ∈ quantVars,
        getKey (quantVars.foldl popStep
          (append2csv d s.skipped s.out).2.1) v = none) ∧
      (∀ k, k ∉ quantVars →
        getKey (quantVars.foldl popStep
            (append2csv d s.skipped s.out).2.1) k =
          getKey (append2csv d s.skipped s.out).2.1 k) := by
  refine ⟨_, endElement_catchsample s d hp hd, rfl, ?_, ?_⟩
  · intro v hv
    rw [getKey_fold_pop, if_pos hv]
  · intro k hk
    rw [getKey_fold_pop, if_neg hk]

/-- Witness for C3's amended statement: after the close at `s0`, the
quantity field catchweight is gone from the record. -/
theorem c3_witness :
    ((endElement s0 "catchsample").bind (fun t => t.data)).map
        (fun r => hasKey r "catchweight") = some false := by
  obtain ⟨s', hse, hdata, hq, _⟩ := c3_amended s0 d0 rfl rfl
  have h := hq "catchweight" (by decide)
  rw [hse]
  simp [hdata, hasKey, h]

/-- C8: in every emitted row the station-comment field carries the
semicolon-to-colon-sanitized value (hence contains no semicolon at all),
and sanitization alters no field other than the station comment. -/
theorem c8_sanitization (d : Rec) (sk : Nat) (out : List String)
    (hacc : accept d = true) :
    append2csv d sk out =
      (1, sanitizedFill d, sk,
       out ++ [pyStrip (joinSemi (VARS.map (rendered d)))]) ∧
      getKey (sanitizedFill d) "stationcomment" =
        some (replaceSemis (baseVal d "stationcomment")) ∧
      countCh ';' (replaceSemis (baseVal d "stationcomment")).data = 0 ∧
      (∀ v, v ≠ "stationcomment" →
        getKey (sanitizedFill d) v =
          getKey (VARS.foldl naFillStep d) v) := by
  refine ⟨append2csv_accepted d sk out hacc, ?_,
    countCh_replaceSemis _, fun v hv => getKey_sanitizedFill_ne d v hv⟩
  rw [getKey_sanitizedFill_mem d "stationcomment" (by decide)]
  simp [rendered]

set_option maxRecDepth 10000 in
/-- Witness for C8 at a record whose station comment is "rough;seas". -/
theorem c8_witness :
    getKey (sanitizedFill d8) "stationcomment" = some "rough:seas" := by
  obtain ⟨_, hsc, _, _⟩ := c8_sanitization d8 0 [] (by decide)
  rw [hsc]
  decide

set_option maxRecDepth 10000 in
/-- C6 counterexample: an emitted row whose commonname value contains a
semicolon splits into 22 fields on the delimiter, not `len(schema) = 21`
(the header row splits into 21), so the split-count part of the claim
fails on the code. -/
theorem c6_counterexample :
    (run (initState "M") evts6).map
        (fun t => t.out.map (fun l => (splitOnChar ';' l.data).length)) =
      some [21, 22] ∧ VARS.length = 21 := by
  exact ⟨by decide, by decide⟩

/-- C6 amended: every emitted row is the semicolon-join of exactly
`len(schema)` values, one per schema field in schema order, with any absent
schema field rendering as the literal `NA`; splitting the row on the
delimiter yields exactly `len(schema)` fields provided no field value
other than the (sanitized) station comment contains a semicolon. -/
theorem c6_amended (s : B3State) (d : Rec) (hp : s.parse = true)
    (hd : s.data = some d) (hacc : accept d = true)
    (hsemi : ∀ v ∈ VARS, v ≠ "stationcomment" →
      countCh ';' (baseVal d v).data = 0) :
    ∃ s', endElement s "catchsample" = some s' ∧
      s'.out = s.out ++ [pyStrip (joinSemi (VARS.map (rendered d)))] ∧
      (VARS.map (rendered d)).length = VARS.length ∧
      (∀ v ∈ VARS, hasKey d v = false → rendered d v = "NA") ∧
      (splitOnChar ';'
          (pyStrip (joinSemi (VARS.map (rendered d)))).data).length =
        VARS.length := by
  have he := endElement_catchsample s d hp hd
  rw [append2csv_accepted d s.skipped s.out hacc] at he
  refine ⟨_, he, rfl, List.length_map _ _,
    fun v _ habs => rendered_of_absent d v habs, ?_⟩
  have hall : ∀ x ∈ VARS.map (rendered d), countCh ';' x.data = 0 := by
    intro x hx
    obtain ⟨v, hv, rfl⟩ := List.mem_map.mp hx
    by_cases hsc : v = "stationcomment"
    · subst hsc
      show countCh ';' (rendered d "stationcomment").data = 0
      unfold rendered
      rw [if_pos rfl]
      exact countCh_replaceSemis _
    · unfold rendered
      rw [if_neg hsc]
      exact hsemi v hv hsc
  have hne : VARS.map (rendered d) ≠ [] := by
    simp [VARS]
  have hcount := countCh_joinSemi (VARS.map (rendered d)) hne hall
  rw [List.length_map] at hcount
  rw [splitOnChar_length, countCh_pyStrip ';' (by decide)]
  exact hcount

set_option maxRecDepth 10000 in
/-- Witness for C6's amended statement at the concrete gated state `s0`. -/
theorem c6_witness :
    (endElement s0 "catchsample").map (fun t => t.out.length) = some 2 ∧
      (splitOnChar ';'
          (pyStrip (joinSemi (VARS.map (rendered d0)))).data).length =
        VARS.length := by
  obtain ⟨s', hse, hout, _, _, hsplit⟩ :=
    c6_amended s0 d0 rfl rfl (by decide) (by decide)
  refine ⟨?_, hsplit⟩
  rw [hse]
  simp [hout, s0]

set_option maxHeartbeats 1000000 in
/-- C2: after an accepted catch-sample close, the NA substitution has been
written into the live record for every absent schema field, and only the
five quantity fields were removed, so serial and commonname remain present
(previous value or "NA"); a record later built from it by further
assignments is accepted exactly when some assignment supplies a quantity
field, regardless of whether serial or commonname are supplied again. -/
theorem c2_na_persistence (s : B3State) (d : Rec) (hp : s.parse = true)
    (hd : s.data = some d) (hacc : accept d = true) :
    ∃ s', endElement s "catchsample" = some s' ∧
      s'.data = some (quantVars.foldl popStep (sanitizedFill d)) ∧
      (∀ v ∈ VARS, v ∉ quantVars → getKey d v = none →
        getKey (quantVars.foldl popStep (sanitizedFill d)) v = some "NA") ∧
      hasKey (quantVars.foldl popStep (sanitizedFill d)) "serial" = true ∧
      hasKey (quantVars.foldl popStep (sanitizedFill d)) "commonname"
        = true ∧
      (∀ v ∈ quantVars,
        hasKey (quantVars.foldl popStep (sanitizedFill d)) v = false) ∧
      (∀ k, k ∉ quantVars →
        (hasKey (quantVars.foldl popStep (sanitizedFill d)) k = true ↔
          k ∈ VARS ∨ hasKey d k = true)) ∧
      (∀ us : List (String × String),
        accept (applyUpdates
            (quantVars.foldl popStep (sanitizedFill d)) us) = true ↔
          ∃ u ∈ us, u.1 ∈ quantVars) := by
  have hd2 : (append2csv d s.skipped s.out).2.1 = sanitizedFill d := by
    rw [append2csv_accepted d s.skipped s.out hacc]
  have hgetq : ∀ v ∈ quantVars,
      getKey (quantVars.foldl popStep (sanitizedFill d)) v = none := by
    intro v hv
    rw [getKey_fold_pop, if_pos hv]
  have hgetnq : ∀ k, k ∉ quantVars →
      getKey (quantVars.foldl popStep (sanitizedFill d)) k =
        getKey (sanitizedFill d) k := by
    intro k hk
    rw [getKey_fold_pop, if_neg hk]
  have hkeynq : ∀ k, k ∉ quantVars →
      (hasKey (quantVars.foldl popStep (sanitizedFill d)) k = true ↔
        k ∈ VARS ∨ hasKey d k = true) := by
    intro k hk
    have heq : hasKey (quantVars.foldl popStep (sanitizedFill d)) k =
        hasKey (sanitizedFill d) k := by
      unfold hasKey
      rw [hgetnq k hk]
    rw [heq, hasKey_sanitizedFill]
  have hkeyq : ∀ v ∈ quantVars,
      hasKey (quantVars.foldl popStep (sanitizedFill d)) v = false := by
    intro v hv
    unfold hasKey
    rw [hgetq v hv]
    rfl
  have hser : hasKey (quantVars.foldl popStep (sanitizedFill d)) "serial"
      = true := by
    rw [hkeynq "serial" (by decide)]
    exact Or.inl (by decide)
  have hcom : hasKey (quantVars.foldl popStep (sanitizedFill d))
      "commonname" = true := by
    rw [hkeynq "commonname" (by decide)]
    exact Or.inl (by decide)
  refine ⟨_, endElement_catchsample s d hp hd, ?_, ?_, hser, hcom, hkeyq,
    hkeynq, ?_⟩
  · show some (quantVars.foldl popStep (append2csv d s.skipped s.out).2.1) =
      some (quantVars.foldl popStep (sanitizedFill d))
    rw [hd2]
  · intro v hv hq hnone
    rw [hgetnq v hq, getKey_sanitizedFill_mem d v hv,
        rendered_of_absent d v (by unfold hasKey; rw [hnone]; rfl)]
  · intro us
    rw [accept_iff]
    constructor
    · rintro ⟨-, -, hq⟩
      have hone : ∀ q, q ∈ quantVars →
          hasKey (applyUpdates
            (quantVars.foldl popStep (sanitizedFill d)) us) q = true →
          ∃ u ∈ us, u.1 ∈ quantVars := by
        intro q hqmem hqk
        rcases (hasKey_applyUpdates us _ q).mp hqk with hin | hin
        · obtain ⟨u, hu, hueq⟩ := List.mem_map.mp hin
          exact ⟨u, hu, hueq ▸ hqmem⟩
        · rw [hkeyq q hqmem] at hin
          cases hin
      rcases hq with h | h | h | h | h
      · exact hone "catchweight" (by decide) h
      · exact hone "catchcount" (by decide) h
      · exact hone "lengthsamplecount" (by decide) h
      · exact hone "lengthsampleweight" (by decide) h
      · exact hone "specimensamplecount" (by decide) h
    · rintro ⟨u, hu, hum⟩
      have hnew : ∀ q, u.1 = q →
          hasKey (applyUpdates
            (quantVars.foldl popStep (sanitizedFill d)) us) q = true := by
        intro q hq
        exact (hasKey_applyUpdates us _ q).mpr
          (Or.inl (List.mem_map.mpr ⟨u, hu, hq⟩))
      refine ⟨(hasKey_applyUpdates us _ "serial").mpr (Or.inr hser),
        (hasKey_applyUpdates us _ "commonname").mpr (Or.inr hcom), ?_⟩
      have hum' : u.1 = "catchweight" ∨ u.1 = "catchcount" ∨
          u.1 = "lengthsamplecount" ∨ u.1 = "lengthsampleweight" ∨
          u.1 = "specimensamplecount" := by
        simpa [quantVars] using hum
      rcases hum' with h | h | h | h | h
      · exact Or.inl (hnew _ h)
      · exact Or.inr (Or.inl (hnew _ h))
      · exact Or.inr (Or.inr (Or.inl (hnew _ h)))
      · exact Or.inr (Or.inr (Or.inr (Or.inl (hnew _ h))))
      · exact Or.inr (Or.inr (Or.inr (Or.inr (hnew _ h))))

set_option maxRecDepth 10000 in
/-- Witness for C2 at the concrete gated state `s0`: the post-close record
accepts again as soon as one quantity field is assigned, with no new serial
or commonname. -/
theorem c2_witness :
    ((endElement s0 "catchsample").bind (fun t => t.data)).map
        (fun r => accept (applyUpdates r [("catchcount", "5")])) =
      some true := by
  obtain ⟨s', hse, hdata, _, _, _, _, _, hus⟩ :=
    c2_na_persistence s0 d0 rfl rfl (by decide)
  have h := (hus [("catchcount", "5")]).mpr
    ⟨("catchcount", "5"), by simp, by decide⟩
  rw [hse]
  simp [hdata, h]

/-- C9: once the gate is open, the close of the mission element discards
the record and shuts the gate, and afterwards no event stream free of text
events matching the configured mission-type name ever emits another row or
reopens the gate. -/
theorem c9_reset_on_mission_end (s : B3State) (evs : List Event)
    (hp : s.parse = true)
    (h : ∀ e ∈ evs, isOpeningText s.missiontypename e = false) :
    ∃ s1 s', endElement s "mission" = some s1 ∧ s1.parse = false ∧
      s1.data = none ∧ s1.out = s.out ∧ run s1 evs = some s' ∧
      s'.out = s.out ∧ s'.parse = false := by
  refine ⟨{ s with data := none, parse := false, tag := "" }, ?_⟩
  obtain ⟨s', hrun, hout, hp'⟩ :=
    run_gate_closed evs { s with data := none, parse := false, tag := "" }
      rfl (fun e he => h e he)
  exact ⟨s', endElement_mission s hp, rfl, rfl, rfl, hrun, hout, hp'⟩

set_option maxRecDepth 10000 in
/-- Witness for C9 at the concrete gated state `s0` and an event stream
containing a catch-sample after the mission close. -/
theorem c9_witness :
    ((endElement s0 "mission").bind (fun t => run t evts9)).map
        (fun t => (t.out, t.parse)) = some (s0.out, false) := by
  obtain ⟨s1, s', h1, _, _, _, hrun, hout, hp⟩ :=
    c9_reset_on_mission_end s0 evts9 rfl (by decide)
  rw [h1]
  simp [hrun, hout, hp]

end Biotic3
